import Mathlib

/-!
Shallow embedding of the `usman-u/dn42` repository's topology-graph
construction (`scripts/generate_topology.py`) and per-node config
generation (`main.py`), with theorems settling the frozen claims about
graph construction, layout, diagram content and file generation.
-/

namespace Dn42

/-! ## Data model (input records, §6 of the spec / YAML inventory) -/

/-- A DN42 peer entry of a router's `peers` list
(`{name, asn, iso_3166_country_code, latency_us}`). -/
structure DnPeer where
  name : String
  asn : Int
  latency_us : Nat
  deriving DecidableEq, Repr

/-- A non-DN42 peer entry of a router's `bgp_peers` list
(`{name, remote_as, type}`). -/
structure BgpPeer where
  name : String
  remote_as : Int
  deriving DecidableEq, Repr

/-- A router record from `inventory/host_vars/<host>/main.yml`,
with `hostname` injected by `load_inventory`. -/
structure Router where
  hostname : String
  loopback : String
  peers : List DnPeer
  bgp_peers : List BgpPeer
  deriving DecidableEq, Repr

/-- An intra-network tunnel descriptor
(`{routers: [a, b], ospf_cost?}`). -/
structure Tunnel where
  routers : List String
  ospf_cost : Option Int
  deriving DecidableEq, Repr

/-! ## Dictionary semantics

Python dicts assign by key with later assignments overwriting earlier
ones.  We keep the assignments as an association list in program order;
a lookup returns the value of the last assignment to the key. -/

/-- Lookup in an assignment list, last assignment to the key wins
(Python dict semantics). -/
def dictGet {κ α : Type} [DecidableEq κ] (l : List (κ × α)) (k : κ) : Option α :=
  l.foldl (fun acc p => if p.1 = k then some p.2 else acc) none

/-! ## GraphBuilder: `generate_logical_diagram`, lines 298-363 and 409-417 -/

/-- `router_nodes`: one entry per router record, in inventory order. -/
def routerNodes (routers : List Router) : List String :=
  routers.map (·.hostname)

/-- `router_labels[hostname] = f"{hostname}\n{loopback}"`. -/
def routerLabels (routers : List Router) : List (String × String) :=
  routers.map (fun r => (r.hostname, r.hostname ++ "\n" ++ r.loopback))

/-- One pass of the tunnel loop (lines 314-321): a descriptor yields an
edge only when its `routers` list has exactly two entries and both are
known router hostnames; otherwise it is skipped. -/
def tunnelEdge (rnodes : List String) (t : Tunnel) : Option (String × String) :=
  match t.routers with
  | [a, b] => if a ∈ rnodes ∧ b ∈ rnodes then some (a, b) else none
  | _ => none

/-- `ibgp_edges`: the ordered pairs appended by the tunnel loop. -/
def ibgpEdges (routers : List Router) (tunnels : List Tunnel) :
    List (String × String) :=
  tunnels.filterMap (tunnelEdge (routerNodes routers))

/-- The internal edge label `f"{ospf_cost}ms"` with
`tunnel.get("ospf_cost", "auto")`. -/
def costLabel (c : Option Int) : String :=
  (match c with | some v => toString v | none => "auto") ++ "ms"

/-- `edge_labels_internal` / `edge_info` assignments, in tunnel order. -/
def edgeLabelsInternal (routers : List Router) (tunnels : List Tunnel) :
    List ((String × String) × String) :=
  tunnels.filterMap (fun t =>
    (tunnelEdge (routerNodes routers) t).map (fun e => (e, costLabel t.ospf_cost)))

/-- Composite peer identity `f'{peer_name}_{peer_asn}'` for a DN42 peer. -/
def dnPeerId (p : DnPeer) : String := p.name ++ "_" ++ toString p.asn

/-- Composite peer identity `f'{peer_name}_{peer_asn}'` for a non-DN42
peer (its `peer_asn` is the `remote_as` field). -/
def bgpPeerId (p : BgpPeer) : String := p.name ++ "_" ++ toString p.remote_as

/-- Peer node label `f"{peer_name}\nAS{peer_asn}"` for a DN42 peer. -/
def dnPeerLabel (p : DnPeer) : String := p.name ++ "\nAS" ++ toString p.asn

/-- Peer node label `f"{peer_name}\nAS{peer_asn}"` for a non-DN42 peer. -/
def bgpPeerLabel (p : BgpPeer) : String := p.name ++ "\nAS" ++ toString p.remote_as

/-- External edge label for a DN42 peer:
`latency_ms = int(peer["latency_us"]) / 1000` followed by
`f"{latency_ms:.0f}ms"`.  The `:.0f` float format rounds to the nearest
integer with ties going to the even integer (round-half-even), which we
compute exactly on the microsecond count. -/
def roundHalfEvenDiv (n d : Nat) : Nat :=
  let q := n / d
  let r := n % d
  if d < 2 * r then q + 1
  else if 2 * r < d then q
  else if q % 2 = 0 then q else q + 1

/-- `f"{int(latency_us) / 1000:.0f}ms"`. -/
def latencyLabel (latency_us : Nat) : String :=
  toString (roundHalfEvenDiv latency_us 1000) ++ "ms"

/-- The peer-collection pass (lines 331-363), in program order: for each
router, first its `peers` entries then its `bgp_peers` entries; each
occurrence records `(peer_id, peer_label, hostname)`.  `peer_labels` and
`peer_to_router` are dicts built from these assignments. -/
def peerEntries (routers : List Router) : List (String × String × String) :=
  routers.flatMap (fun r =>
    r.peers.map (fun p => (dnPeerId p, dnPeerLabel p, r.hostname)) ++
    r.bgp_peers.map (fun p => (bgpPeerId p, bgpPeerLabel p, r.hostname)))

/-- `dn42_peers`: DN42 peer ids appended in program order (with
duplicates when identities collide). -/
def dn42Peers (routers : List Router) : List String :=
  routers.flatMap (fun r => r.peers.map dnPeerId)

/-- `other_peers`: non-DN42 peer ids appended in program order. -/
def otherPeers (routers : List Router) : List String :=
  routers.flatMap (fun r => r.bgp_peers.map bgpPeerId)

/-- `peer_labels` as the dict assignment list. -/
def peerLabels (routers : List Router) : List (String × String) :=
  (peerEntries routers).map (fun e => (e.1, e.2.1))

/-- `peer_to_router` as the dict assignment list. -/
def peerToRouter (routers : List Router) : List (String × String) :=
  (peerEntries routers).map (fun e => (e.1, e.2.2))

/-- `external_edges`: one `(hostname, peer_id)` pair appended per peer
occurrence, in program order. -/
def externalEdges (routers : List Router) : List (String × String) :=
  (peerEntries routers).map (fun e => (e.2.2, e.1))

/-- `edge_labels_external` assignments: latency label for DN42 peers,
empty string for non-DN42 peers, in program order. -/
def edgeLabelsExternal (routers : List Router) :
    List ((String × String) × String) :=
  routers.flatMap (fun r =>
    r.peers.map (fun p => ((r.hostname, dnPeerId p), latencyLabel p.latency_us)) ++
    r.bgp_peers.map (fun p => ((r.hostname, bgpPeerId p), "")))

/-! ## The networkx graph `G` (lines 409-417)

`nx.Graph()` keeps a set of nodes and a set of undirected edges:
`add_node` on a present node and `add_edge` on a present unordered pair
are no-ops.  We model the node set as a duplicate-free list in insertion
order and the edge set as a list of representative ordered pairs where a
pair is present when either orientation has been added. -/

/-- `G.add_node`: a no-op when the node is already present. -/
def addNode (ns : List String) (n : String) : List String :=
  if n ∈ ns then ns else ns ++ [n]

/-- Membership of the unordered pair `{a, b}` in an edge list of
representative ordered pairs. -/
def pairMem (es : List (String × String)) (a b : String) : Prop :=
  (a, b) ∈ es ∨ (b, a) ∈ es

instance (es : List (String × String)) (a b : String) :
    Decidable (pairMem es a b) := by
  unfold pairMem; infer_instance

/-- `G.add_edge`: a no-op when the unordered pair is already present. -/
def addEdge (es : List (String × String)) (e : String × String) :
    List (String × String) :=
  if pairMem es e.1 e.2 then es else es ++ [e]

/-- `G`'s node set after the `add_node` loops (lines 410-413): routers,
then DN42 peers, then non-DN42 peers. -/
def graphNodes (routers : List Router) : List String :=
  (routerNodes routers ++ dn42Peers routers ++ otherPeers routers).foldl addNode []

/-- `G`'s edge set after the `add_edge` loops (lines 414-417): internal
edges first, then external edges. -/
def graphEdges (routers : List Router) (tunnels : List Tunnel) :
    List (String × String) :=
  (ibgpEdges routers tunnels ++ externalEdges routers).foldl addEdge []

/-- Number of edges of the graph matching the unordered pair `{a, b}`. -/
def pairCount (es : List (String × String)) (a b : String) : Nat :=
  (es.filter (fun e => (e.1 = a ∧ e.2 = b) ∨ (e.1 = b ∧ e.2 = a))).length

/-! ## `main.py`: frr.conf assembly (lines 32-47)

The per-node file is written with `f.write(global_config_rendered)` then
`f.write(bgp_config)`, then reopened in append mode and extended with
`"\n"`, the literal header line, and the rendered route-map text. -/

/-- The successive `f.write(...)` payloads that end up in a node's
`frr.conf`, in program order: the rendered global template, the rendered
BGP template (lines 36-37), then the appended newline, header line and
rendered route-map template (lines 43-45). -/
def frrWrites (globalConfig bgpConfig routeMapConfig : String) : List String :=
  [globalConfig, bgpConfig, "\n", "! Route-maps configuration\n", routeMapConfig]

/-- The final text of a node's `frr.conf`: the concatenation of the
writes in order. -/
def frrConf (globalConfig bgpConfig routeMapConfig : String) : String :=
  (frrWrites globalConfig bgpConfig routeMapConfig).foldl (· ++ ·) ""

/-! ## `main.py`: WireGuard peer config loop (lines 16-30)

For each node, for each peer: the config text is rendered, then
`filename` is assigned only when `peer.get("asn")` is truthy, and the
text is written to `os.path.join(node_name, filename)`.  The `filename`
variable is a module-level binding that persists across loop iterations
and across nodes; if it has never been assigned when the write executes,
Python raises an unhandled `NameError`.  We model the run as producing
the list of `(path, text)` writes, or an error when the unbound name is
hit (which aborts the whole program). -/

/-- A peer entry of `config["peers"][node_name]`; `rendered` stands for
the text produced by `wg_template.render(node=node, peer=peer,
common=common)`, which this model does not interpret. -/
structure WgPeer where
  asn : Option Int
  rendered : String
  deriving DecidableEq, Repr

/-- A node entry of `config["nodes"]` together with its peer list
`config.get("peers", {}).get(node_name, [])`. -/
structure WgNode where
  name : String
  wgpeers : List WgPeer
  deriving DecidableEq, Repr

/-- Truthiness of `peer.get("asn")`: a missing key or a zero value is
falsy. -/
def truthyAsn : Option Int → Bool
  | some a => a != 0
  | none => false

/-- `f"wg{peer['asn']}.conf"`. -/
def wgFilename (asn : Int) : String := "wg" ++ toString asn ++ ".conf"

/-- The inner peer loop for one node: threads the `filename` binding,
returns the writes of this node and the binding left for later
iterations, or an error when the write hits the unbound name. -/
def writePeers (nodeName : String) (peers : List WgPeer)
    (filename : Option String) :
    Except Unit (List (String × String) × Option String) :=
  match peers with
  | [] => .ok ([], filename)
  | p :: rest =>
    let filename' := match p.asn with
      | some a => if a != 0 then some (wgFilename a) else filename
      | none => filename
    match filename' with
    | none => .error ()
    | some fn =>
      (writePeers nodeName rest (some fn)).map
        (fun wsf => ((nodeName ++ "/" ++ fn, p.rendered) :: wsf.1, wsf.2))

/-- The outer node loop restricted to its WireGuard writes. -/
def writeRun (nodes : List WgNode) (filename : Option String) :
    Except Unit (List (String × String)) :=
  match nodes with
  | [] => .ok []
  | n :: rest =>
    match writePeers n.name n.wgpeers filename with
    | .error e => .error e
    | .ok (ws, f) =>
      match writeRun rest f with
      | .error e => .error e
      | .ok ws' => .ok (ws ++ ws')

/-- The whole program's WireGuard writes: `filename` starts unbound. -/
def wgGeneration (nodes : List WgNode) :
    Except Unit (List (String × String)) :=
  writeRun nodes none

/-- All peers of a run in program order. -/
def flatPeers (nodes : List WgNode) : List WgPeer :=
  nodes.flatMap (·.wgpeers)

/-! ## Hostname-prefix lookup tables -/

/-- `hostname.split("-")[0].lower()`. -/
def hostPrefix (hostname : String) : String :=
  ((hostname.splitOn "-").headD "").toLower

/-- The `LOGICAL_POSITIONS` table (lines 53-59). -/
noncomputable def LOGICAL_POSITIONS (p : String) : Option (ℝ × ℝ) :=
  if p = "lhr" then some (-0.3, 0.5)
  else if p = "frk" then some (-0.1, 0.4)
  else if p = "ewr" then some (-0.7, 0.3)
  else if p = "lax" then some (-1.0, 0.1)
  else if p = "sgx" then some (0.6, -0.3)
  else none

/-- `get_logical_position`: table lookup with default `(0, 0)`. -/
noncomputable def get_logical_position (hostname : String) : ℝ × ℝ :=
  (LOGICAL_POSITIONS (hostPrefix hostname)).getD (0, 0)

/-- The `LOCATION_COORDS` table (lines 24-49), `(longitude, latitude)`. -/
noncomputable def LOCATION_COORDS (p : String) : Option (ℝ × ℝ) :=
  if p = "lhr" then some (-0.4543, 51.4700)
  else if p = "ewr" then some (-74.1745, 40.6895)
  else if p = "lax" then some (-118.4085, 33.9416)
  else if p = "ams" then some (4.7683, 52.3105)
  else if p = "fra" then some (8.5706, 50.0379)
  else if p = "frk" then some (8.5706, 50.0379)
  else if p = "sin" then some (103.9915, 1.3644)
  else if p = "sgx" then some (103.9915, 1.3644)
  else if p = "syd" then some (151.1772, -33.9399)
  else if p = "nrt" then some (140.3929, 35.7720)
  else if p = "hkg" then some (113.9145, 22.3080)
  else if p = "GB" then some (-0.1276, 51.5074)
  else if p = "US" then some (-95.7129, 37.0902)
  else if p = "NL" then some (4.8952, 52.3702)
  else if p = "DE" then some (10.4515, 51.1657)
  else if p = "FR" then some (2.3522, 48.8566)
  else if p = "JP" then some (139.6917, 35.6895)
  else if p = "SG" then some (103.8198, 1.3521)
  else if p = "AU" then some (151.2093, -33.8688)
  else if p = "CA" then some (-106.3468, 56.1304)
  else if p = "HK" then some (114.1694, 22.3193)
  else none

/-- `get_router_coords`: table lookup with the `"lhr"` entry as
default. -/
noncomputable def get_router_coords (hostname : String) : ℝ × ℝ :=
  (LOCATION_COORDS (hostPrefix hostname)).getD (-0.4543, 51.4700)

/-! ## `generate_geo_map` informational content (lines 106-287)

The function draws, in the cartopy branch (lines 140-233): every
internal edge, every router node, every router's label text, and a
latency label for every internal edge.  The fallback branch first
computes a rectangular viewport from the `min`/`max` of the router
coordinates plus fixed margins (lines 239-246) — Python's `min`/`max`
raise `ValueError` on an empty sequence, so with no routers the
fallback aborts before drawing anything — and then draws every internal
edge, every router node and every router's label text, but contains no
edge-label loop.  We record the drawn content of both branches, or the
uncaught error of the fallback's viewport computation. -/

/-- The informational content of the geographic diagram: which nodes and
edges are drawn, and which label texts appear on nodes and edges. -/
structure GeoOutput where
  nodes : List String
  edges : List (String × String)
  nodeLabels : List (String × String)
  edgeLabels : List ((String × String) × String)
  deriving DecidableEq, Repr

/-- `router_positions_geo` dict assignments (lines 117-123). -/
noncomputable def routerPositionsGeo (routers : List Router) :
    List (String × (ℝ × ℝ)) :=
  routers.map (fun r => (r.hostname, get_router_coords r.hostname))

/-- Python's `min` over a sequence of floats: raises `ValueError` on an
empty sequence. -/
noncomputable def pyMin (l : List ℝ) : Except Unit ℝ :=
  match l with
  | [] => .error ()
  | x :: xs => .ok (xs.foldl min x)

/-- Python's `max` over a sequence of floats: raises `ValueError` on an
empty sequence. -/
noncomputable def pyMax (l : List ℝ) : Except Unit ℝ :=
  match l with
  | [] => .error ()
  | x :: xs => .ok (xs.foldl max x)

/-- Lines 239-246 of the fallback branch: `all_lons` / `all_lats` over
`router_positions_geo.values()`, then `set_xlim(min - 20, max + 20)` and
`set_ylim(min - 15, max + 15)`.  With no routers the first `min` raises,
aborting the fallback before anything is drawn. -/
noncomputable def fallbackViewport (routers : List Router) :
    Except Unit ((ℝ × ℝ) × (ℝ × ℝ)) :=
  match pyMin ((routerPositionsGeo routers).map (fun kv => kv.2.1)),
        pyMax ((routerPositionsGeo routers).map (fun kv => kv.2.1)),
        pyMin ((routerPositionsGeo routers).map (fun kv => kv.2.2)),
        pyMax ((routerPositionsGeo routers).map (fun kv => kv.2.2)) with
  | .ok lonMin, .ok lonMax, .ok latMin, .ok latMax =>
      .ok ((lonMin - 20, lonMax + 20), (latMin - 15, latMax + 15))
  | _, _, _, _ => .error ()

/-- The content drawn by `generate_geo_map` when the projection
capability (`HAS_CARTOPY`) is `hasCartopy`: the cartopy branch always
draws nodes, edges, node labels and edge labels; the fallback branch
first computes its viewport — propagating the `ValueError` of an empty
coordinate list — and then draws nodes, edges and node labels but no
edge labels. -/
noncomputable def geoMapContent (hasCartopy : Bool) (routers : List Router)
    (tunnels : List Tunnel) : Except Unit GeoOutput :=
  if hasCartopy then
    .ok { nodes := routerNodes routers
          edges := ibgpEdges routers tunnels
          nodeLabels := (routerNodes routers).map (fun h =>
            (h, (dictGet (routerLabels routers) h).getD ""))
          edgeLabels := (ibgpEdges routers tunnels).map (fun e =>
            (e, (dictGet (edgeLabelsInternal routers tunnels) e).getD "")) }
  else
    match fallbackViewport routers with
    | .error e => .error e
    | .ok _ =>
      .ok { nodes := routerNodes routers
            edges := ibgpEdges routers tunnels
            nodeLabels := (routerNodes routers).map (fun h =>
              (h, (dictGet (routerLabels routers) h).getD ""))
            edgeLabels := [] }

/-! ## LayoutEngine: radial fan-out placement (lines 365-406) -/

/-- `np.linalg.norm` of a 2-vector (Euclidean norm). -/
noncomputable def npNorm (v : ℝ × ℝ) : ℝ := Real.sqrt (v.1 ^ 2 + v.2 ^ 2)

/-- `np.arctan2(y, x)`: the angle of the vector `(x, y)` in `(-π, π]`,
with `arctan2(0, 0) = 0`. -/
noncomputable def arctan2 (y x : ℝ) : ℝ := Complex.arg ⟨x, y⟩

/-- Lines 384-388: the direction from the router-anchor centroid to the
router, normalized when its norm is positive, else the `+x` unit
vector. -/
noncomputable def fanDirection (d : ℝ × ℝ) : ℝ × ℝ :=
  if 0 < npNorm d then (d.1 / npNorm d, d.2 / npNorm d) else (1, 0)

/-- Line 391: `base_angle = np.arctan2(direction[1], direction[0])`. -/
noncomputable def baseAngle (d : ℝ × ℝ) : ℝ :=
  arctan2 (fanDirection d).2 (fanDirection d).1

/-- `np.linspace(start, stop, n)`: `n` evenly spaced samples with both
endpoints included (a single sample is the start point). -/
noncomputable def linspace (start stop : ℝ) (n : ℕ) : List ℝ :=
  if n = 1 then [start]
  else (List.range n).map
    (fun (i : ℕ) => start + (i : ℝ) * ((stop - start) / ((n : ℝ) - 1)))

/-- Line 399: `spread = np.pi / 1.5` (120 degrees). -/
noncomputable def spreadAngle : ℝ := Real.pi / 1.5

/-- Lines 394-400: a single peer sits at the base angle; `n > 1` peers
are spread by `np.linspace(base - spread/2, base + spread/2, n)`. -/
noncomputable def fanAngles (base : ℝ) (n : ℕ) : List ℝ :=
  if n = 1 then [base]
  else linspace (base - spreadAngle / 2) (base + spreadAngle / 2) n

/-- Line 402: `peer_distance = 0.45`. -/
noncomputable def peer_distance : ℝ := 0.45

/-- Line 406: `pos[peer_id] = router_pos + peer_distance *
np.array([np.cos(angle), np.sin(angle)])`. -/
noncomputable def peerPos (routerPos : ℝ × ℝ) (angle : ℝ) : ℝ × ℝ :=
  (routerPos.1 + peer_distance * Real.cos angle,
   routerPos.2 + peer_distance * Real.sin angle)

/-- `np.mean(axis=0)` of a list of 2-vectors. -/
noncomputable def centroid (vs : List (ℝ × ℝ)) : ℝ × ℝ :=
  ((vs.map Prod.fst).sum / vs.length, (vs.map Prod.snd).sum / vs.length)

/-- Lines 366-368: `router_center`, the mean of `pos[r]` over
`router_nodes` (each `pos[r]` equals `get_logical_position r`). -/
noncomputable def routerCenter (routers : List Router) : ℝ × ℝ :=
  centroid ((routerNodes routers).map get_logical_position)

/-- One step of the grouping loop (lines 373-378): append the peer to
its router's bucket, creating the bucket on first touch. -/
def insertPeerBucket (m : List (String × List String)) (r p : String) :
    List (String × List String) :=
  if m.any (fun kv => kv.1 == r) then
    m.map (fun kv => if kv.1 = r then (kv.1, kv.2 ++ [p]) else kv)
  else m ++ [(r, [p])]

/-- `peers_by_router` (lines 372-378): iterate `dn42_peers +
other_peers`; `peer_to_router.get(peer_id)` must be truthy (in
particular not the empty string) for the peer to be grouped. -/
def peersByRouter (routers : List Router) : List (String × List String) :=
  (dn42Peers routers ++ otherPeers routers).foldl
    (fun m pid =>
      match dictGet (peerToRouter routers) pid with
      | some r => if r = "" then m else insertPeerBucket m r pid
      | none => m) []

/-- The full `pos` mapping of the logical diagram after lines 303-406:
every router at its fixed anchor, then every grouped peer at its fan
position (each router's peer bucket is fanned around the base angle of
the centroid-to-router direction, at distance `peer_distance`). -/
noncomputable def logicalLayout (routers : List Router) :
    List (String × (ℝ × ℝ)) :=
  routers.map (fun r => (r.hostname, get_logical_position r.hostname)) ++
  (peersByRouter routers).flatMap (fun b =>
    (b.2.zip (fanAngles
        (baseAngle ((get_logical_position b.1).1 - (routerCenter routers).1,
                    (get_logical_position b.1).2 - (routerCenter routers).2))
        b.2.length)).map
      (fun pa => (pa.1, peerPos (get_logical_position b.1) pa.2)))

/-! ## Concrete inputs used by scenario theorems and counterexamples -/

/-- Scenario router `rA` carrying the DN42 peer
`{name: "peerX", asn: 64512, latency_us: 1500}`. -/
def scenarioRA : Router :=
  { hostname := "rA", loopback := "",
    peers := [{ name := "peerX", asn := 64512, latency_us := 1500 }],
    bgp_peers := [] }

/-- Scenario router `rB`, no peers. -/
def scenarioRB : Router :=
  { hostname := "rB", loopback := "", peers := [], bgp_peers := [] }

/-- The two scenario routers. -/
def scenarioRouters : List Router := [scenarioRA, scenarioRB]

/-- The scenario tunnel written as `[rA, rB]`. -/
def tunnelAB : Tunnel := { routers := ["rA", "rB"], ospf_cost := none }

/-- The scenario tunnel written as `[rB, rA]`. -/
def tunnelBA : Tunnel := { routers := ["rB", "rA"], ospf_cost := none }

/-- A router whose hostname is the empty string (falsy in Python) with
one attached peer. -/
def emptyNameRouter : Router :=
  { hostname := "", loopback := "",
    peers := [{ name := "p", asn := 1, latency_us := 1000 }],
    bgp_peers := [] }

/-- Two routers whose peer entries collide on the composite identity
`p_1`, with different latencies and different owning routers. -/
def collidingRouters : List Router :=
  [{ hostname := "h1", loopback := "",
     peers := [{ name := "p", asn := 1, latency_us := 1000 }], bgp_peers := [] },
   { hostname := "h2", loopback := "",
     peers := [{ name := "p", asn := 1, latency_us := 2000 }], bgp_peers := [] }]

/-! ## Dictionary lemmas -/

theorem dictGet_foldl_skip {κ α : Type} [DecidableEq κ] (k : κ)
    (l : List (κ × α)) (acc : Option α) (h : k ∉ l.map Prod.fst) :
    l.foldl (fun acc p => if p.1 = k then some p.2 else acc) acc = acc := by
  induction l generalizing acc with
  | nil => rfl
  | cons x xs ih =>
    simp only [List.map_cons, List.mem_cons] at h
    push_neg at h
    simp only [List.foldl_cons]
    rw [if_neg (fun he => h.1 he.symm)]
    exact ih _ h.2

theorem dictGet_last {κ α : Type} [DecidableEq κ] (A B : List (κ × α)) (k : κ) (v : α)
    (hB : k ∉ B.map Prod.fst) :
    dictGet (A ++ (k, v) :: B) k = some v := by
  unfold dictGet
  rw [List.foldl_append, List.foldl_cons]
  simp only [if_pos rfl]
  exact dictGet_foldl_skip k B _ hB

theorem dictGet_foldl_isSome {κ α : Type} [DecidableEq κ] (k : κ)
    (l : List (κ × α)) (acc : Option α) :
    (l.foldl (fun acc p => if p.1 = k then some p.2 else acc) acc).isSome
      ↔ acc.isSome ∨ k ∈ l.map Prod.fst := by
  induction l generalizing acc with
  | nil => simp
  | cons x xs ih =>
    simp only [List.foldl_cons, List.map_cons, List.mem_cons]
    rw [ih]
    by_cases hx : x.1 = k
    · simp [hx]
    · rw [if_neg hx]
      constructor
      · rintro (h | h)
        · exact Or.inl h
        · exact Or.inr (Or.inr h)
      · rintro (h | h | h)
        · exact Or.inl h
        · exact absurd h.symm hx
        · exact Or.inr h

theorem dictGet_isSome_iff {κ α : Type} [DecidableEq κ] (l : List (κ × α)) (k : κ) :
    (dictGet l k).isSome ↔ k ∈ l.map Prod.fst := by
  rw [dictGet, dictGet_foldl_isSome]
  simp

theorem dictGet_eq_none_iff {κ α : Type} [DecidableEq κ] (l : List (κ × α)) (k : κ) :
    dictGet l k = none ↔ k ∉ l.map Prod.fst := by
  rw [← dictGet_isSome_iff]
  cases dictGet l k <;> simp

theorem dictGet_foldl_mem {κ α : Type} [DecidableEq κ] (k : κ) (v : α)
    (l : List (κ × α)) (acc : Option α)
    (h : l.foldl (fun acc p => if p.1 = k then some p.2 else acc) acc = some v) :
    (k, v) ∈ l ∨ acc = some v := by
  induction l generalizing acc with
  | nil => exact Or.inr h
  | cons x xs ih =>
    obtain ⟨x1, x2⟩ := x
    rw [List.foldl_cons] at h
    rcases ih _ h with h' | h'
    · exact Or.inl (List.mem_cons_of_mem _ h')
    · by_cases hx : x1 = k
      · rw [if_pos hx] at h'
        injection h' with h2
        subst hx; subst h2
        exact Or.inl (List.mem_cons_self _ _)
      · rw [if_neg hx] at h'
        exact Or.inr h'

theorem dictGet_mem {κ α : Type} [DecidableEq κ] {l : List (κ × α)} {k : κ} {v : α}
    (h : dictGet l k = some v) : (k, v) ∈ l := by
  rcases dictGet_foldl_mem k v l none h with h' | h'
  · exact h'
  · cases h'

/-! ## Node-set and edge-set lemmas (networkx `add_node` / `add_edge`) -/

theorem mem_addNode (ns : List String) (n x : String) :
    x ∈ addNode ns n ↔ x ∈ ns ∨ x = n := by
  unfold addNode
  by_cases h : n ∈ ns
  · rw [if_pos h]
    constructor
    · exact Or.inl
    · rintro (hx | rfl)
      · exact hx
      · exact h
  · rw [if_neg h]
    simp

theorem mem_foldl_addNode (l : List String) (ns : List String) (x : String) :
    x ∈ l.foldl addNode ns ↔ x ∈ ns ∨ x ∈ l := by
  induction l generalizing ns with
  | nil => simp
  | cons y ys ih =>
    rw [List.foldl_cons, ih, mem_addNode]
    simp [or_assoc]

theorem nodup_addNode (ns : List String) (n : String) (h : ns.Nodup) :
    (addNode ns n).Nodup := by
  unfold addNode
  by_cases hn : n ∈ ns
  · rwa [if_pos hn]
  · rw [if_neg hn]
    simp [List.nodup_append, h, hn]

theorem nodup_foldl_addNode (l : List String) (ns : List String) (h : ns.Nodup) :
    (l.foldl addNode ns).Nodup := by
  induction l generalizing ns with
  | nil => exact h
  | cons y ys ih => exact ih _ (nodup_addNode _ _ h)

theorem mem_graphNodes (routers : List Router) (n : String) :
    n ∈ graphNodes routers ↔
      n ∈ routerNodes routers ∨ n ∈ dn42Peers routers ∨ n ∈ otherPeers routers := by
  unfold graphNodes
  rw [mem_foldl_addNode]
  simp

theorem nodup_graphNodes (routers : List Router) : (graphNodes routers).Nodup :=
  nodup_foldl_addNode _ _ List.nodup_nil

theorem pairMem_comm (es : List (String × String)) (a b : String) :
    pairMem es a b ↔ pairMem es b a := by
  unfold pairMem
  exact or_comm

theorem pairMem_addEdge_self (es : List (String × String)) (e : String × String) :
    pairMem (addEdge es e) e.1 e.2 := by
  unfold addEdge
  by_cases h : pairMem es e.1 e.2
  · rwa [if_pos h]
  · rw [if_neg h]
    exact Or.inl (by simp)

theorem pairMem_addEdge_mono (es : List (String × String)) (e : String × String)
    (a b : String) (h : pairMem es a b) : pairMem (addEdge es e) a b := by
  unfold addEdge
  split
  · exact h
  · rcases h with h | h
    · exact Or.inl (List.mem_append_left _ h)
    · exact Or.inr (List.mem_append_left _ h)

theorem pairMem_foldl_mono (l : List (String × String)) (es : List (String × String))
    (a b : String) (h : pairMem es a b) : pairMem (l.foldl addEdge es) a b := by
  induction l generalizing es with
  | nil => exact h
  | cons x xs ih => exact ih _ (pairMem_addEdge_mono _ _ _ _ h)

theorem pairMem_foldl_of_mem (l : List (String × String)) (es : List (String × String))
    (e : String × String) (he : e ∈ l) : pairMem (l.foldl addEdge es) e.1 e.2 := by
  induction l generalizing es with
  | nil => cases he
  | cons x xs ih =>
    rw [List.foldl_cons]
    rcases List.mem_cons.mp he with rfl | hx
    · exact pairMem_foldl_mono _ _ _ _ (pairMem_addEdge_self _ _)
    · exact ih _ hx

theorem pairCount_append (es fs : List (String × String)) (a b : String) :
    pairCount (es ++ fs) a b = pairCount es a b + pairCount fs a b := by
  simp [pairCount, List.filter_append]

theorem pairCount_eq_zero (es : List (String × String)) (a b : String)
    (h : ¬ pairMem es a b) : pairCount es a b = 0 := by
  rw [pairCount, List.length_eq_zero, List.filter_eq_nil_iff]
  rintro ⟨x1, x2⟩ hx hpx
  simp only [decide_eq_true_eq] at hpx
  rcases hpx with ⟨rfl, rfl⟩ | ⟨rfl, rfl⟩
  · exact h (Or.inl hx)
  · exact h (Or.inr hx)

theorem pairCount_addEdge_le (es : List (String × String)) (e : String × String)
    (a b : String) (h : pairCount es a b ≤ 1) : pairCount (addEdge es e) a b ≤ 1 := by
  unfold addEdge
  by_cases hm : pairMem es e.1 e.2
  · rwa [if_pos hm]
  · rw [if_neg hm, pairCount_append]
    by_cases hme : (e.1 = a ∧ e.2 = b) ∨ (e.1 = b ∧ e.2 = a)
    · have h0 : pairCount es a b = 0 := by
        apply pairCount_eq_zero
        intro hab
        apply hm
        obtain ⟨e1, e2⟩ := e
        rcases hme with ⟨rfl, rfl⟩ | ⟨rfl, rfl⟩
        · exact hab
        · exact (pairMem_comm _ _ _).mp hab
      have h1 : pairCount [e] a b ≤ 1 := by
        simp [pairCount, List.filter]
        split <;> simp
      omega
    · have h1 : pairCount [e] a b = 0 := by
        apply pairCount_eq_zero
        intro hab
        apply hme
        obtain ⟨e1, e2⟩ := e
        rcases hab with hab | hab <;> simp only [List.mem_singleton, Prod.mk.injEq] at hab
        · exact Or.inl ⟨hab.1.symm, hab.2.symm⟩
        · exact Or.inr ⟨hab.1.symm, hab.2.symm⟩
      omega

theorem pairCount_foldl_le (l : List (String × String)) (es : List (String × String))
    (a b : String) (h : pairCount es a b ≤ 1) :
    pairCount (l.foldl addEdge es) a b ≤ 1 := by
  induction l generalizing es with
  | nil => exact h
  | cons x xs ih => exact ih _ (pairCount_addEdge_le _ _ _ _ h)

theorem pairMem_one_le_pairCount (es : List (String × String)) (a b : String)
    (h : pairMem es a b) : 1 ≤ pairCount es a b := by
  rcases h with h | h
  · have : (a, b) ∈ es.filter
        (fun e => decide ((e.1 = a ∧ e.2 = b) ∨ (e.1 = b ∧ e.2 = a))) :=
      List.mem_filter.mpr ⟨h, by simp⟩
    exact List.length_pos_of_mem this
  · have : (b, a) ∈ es.filter
        (fun e => decide ((e.1 = a ∧ e.2 = b) ∨ (e.1 = b ∧ e.2 = a))) :=
      List.mem_filter.mpr ⟨h, by simp⟩
    exact List.length_pos_of_mem this

/-! ## Claim C1: internal-edge de-duplication -/

/-- C1: for every input tunnel list, whenever at least one well-formed
descriptor names the unordered router pair `{a, b}` (in either order,
both endpoints known), the built graph contains exactly one edge
matching that pair: `add_edge` on a `networkx` graph is idempotent
across both orientations, so duplicate descriptors never create a
second internal edge. -/
theorem internal_edge_dedup (routers : List Router) (tunnels : List Tunnel)
    (a b : String)
    (h : ∃ t ∈ tunnels, (t.routers = [a, b] ∨ t.routers = [b, a]) ∧
           a ∈ routerNodes routers ∧ b ∈ routerNodes routers) :
    pairCount (graphEdges routers tunnels) a b = 1 := by
  obtain ⟨t, ht, hab, ha, hb⟩ := h
  have hle : pairCount (graphEdges routers tunnels) a b ≤ 1 := by
    unfold graphEdges
    exact pairCount_foldl_le _ _ _ _ (by simp [pairCount])
  have hge : 1 ≤ pairCount (graphEdges routers tunnels) a b := by
    apply pairMem_one_le_pairCount
    rcases hab with hab | hab
    · have he : (a, b) ∈ ibgpEdges routers tunnels :=
        List.mem_filterMap.mpr ⟨t, ht, by simp [tunnelEdge, hab, ha, hb]⟩
      exact pairMem_foldl_of_mem _ _ (a, b) (List.mem_append_left _ he)
    · have he : (b, a) ∈ ibgpEdges routers tunnels :=
        List.mem_filterMap.mpr ⟨t, ht, by simp [tunnelEdge, hab, ha, hb]⟩
      exact (pairMem_comm _ _ _).mpr
        (pairMem_foldl_of_mem _ _ (b, a) (List.mem_append_left _ he))
  omega

/-- C1 witness: two routers, with descriptors `[rA, rB]`, `[rB, rA]`
and `[rA, rB]` again; the graph has exactly one edge for the pair. -/
theorem internal_edge_dedup_witness :
    (∃ t ∈ [tunnelAB, tunnelBA, tunnelAB],
        (t.routers = ["rA", "rB"] ∨ t.routers = ["rB", "rA"]) ∧
        "rA" ∈ routerNodes scenarioRouters ∧ "rB" ∈ routerNodes scenarioRouters) ∧
    pairCount (graphEdges scenarioRouters [tunnelAB, tunnelBA, tunnelAB]) "rA" "rB" = 1 :=
  ⟨by decide, internal_edge_dedup scenarioRouters [tunnelAB, tunnelBA, tunnelAB]
    "rA" "rB" (by decide)⟩

/-! ## Claim C8: malformed / dangling tunnel descriptors are skipped -/

/-- C8: a tunnel descriptor whose `routers` list does not have exactly
two entries, or that references a hostname outside the router set,
yields no edge (`tunnelEdge` returns `none`, total — nothing raises)
and removing it leaves the built edge set of the remaining descriptors
unchanged. -/
theorem dangling_tunnel_skip (routers : List Router) (ts1 ts2 : List Tunnel)
    (t : Tunnel)
    (h : t.routers.length ≠ 2 ∨ ∃ x ∈ t.routers, x ∉ routerNodes routers) :
    tunnelEdge (routerNodes routers) t = none ∧
    ibgpEdges routers (ts1 ++ t :: ts2) = ibgpEdges routers (ts1 ++ ts2) ∧
    graphEdges routers (ts1 ++ t :: ts2) = graphEdges routers (ts1 ++ ts2) := by
  have hnone : tunnelEdge (routerNodes routers) t = none := by
    unfold tunnelEdge
    split
    · rename_i a b heq
      rcases h with h | ⟨x, hx, hmem⟩
      · exact absurd (by rw [heq]; rfl) h
      · rw [if_neg]
        rintro ⟨ha, hb⟩
        rw [heq] at hx
        simp only [List.mem_cons, List.not_mem_nil, or_false] at hx
        rcases hx with rfl | rfl
        · exact hmem ha
        · exact hmem hb
    · rfl
  have hedges : ibgpEdges routers (ts1 ++ t :: ts2) = ibgpEdges routers (ts1 ++ ts2) := by
    simp [ibgpEdges, List.filterMap_append, List.filterMap_cons, hnone]
  refine ⟨hnone, hedges, ?_⟩
  unfold graphEdges
  rw [hedges]

/-- C8 witness: a descriptor referencing the unknown router `ghost`
produces no edge and leaves the rest of the generation unchanged. -/
theorem dangling_tunnel_skip_witness :
    ((Tunnel.mk ["rA", "ghost"] none).routers.length ≠ 2 ∨
      ∃ x ∈ (Tunnel.mk ["rA", "ghost"] none).routers,
        x ∉ routerNodes scenarioRouters) ∧
    tunnelEdge (routerNodes scenarioRouters) (Tunnel.mk ["rA", "ghost"] none) = none ∧
    ibgpEdges scenarioRouters ([tunnelAB] ++ Tunnel.mk ["rA", "ghost"] none :: []) =
      ibgpEdges scenarioRouters ([tunnelAB] ++ []) ∧
    graphEdges scenarioRouters ([tunnelAB] ++ Tunnel.mk ["rA", "ghost"] none :: []) =
      graphEdges scenarioRouters ([tunnelAB] ++ []) :=
  ⟨by decide, dangling_tunnel_skip scenarioRouters [tunnelAB] []
    (Tunnel.mk ["rA", "ghost"] none) (by decide)⟩

/-! ## Claim C6: the two-router / one-peer scenario -/

/-- C6 counterexample: in the scenario the external edge's label is the
string `"2ms"` (the code computes `1500 / 1000 = 1.5` and formats it
with `:.0f`, rounding half-to-even), not `"1.5ms\nWireGuard"`; no
WireGuard text is attached to the edge label. -/
theorem scenario_external_label_cex :
    dictGet (edgeLabelsExternal scenarioRouters) ("rA", "peerX_64512") = some "2ms" ∧
    "2ms" ≠ "1.5ms\nWireGuard" := by decide

/-- C6 amended: the scenario graph has exactly the 3 nodes `rA`, `rB`,
`peerX_64512` and exactly 2 edges; the internal edge appears once
whether the descriptor lists `[rA, rB]` or `[rB, rA]` (or both); and
the external edge's label renders as `"2ms"`. -/
theorem scenario_graph :
    graphNodes scenarioRouters = ["rA", "rB", "peerX_64512"] ∧
    (graphNodes scenarioRouters).length = 3 ∧
    graphEdges scenarioRouters [tunnelAB] = [("rA", "rB"), ("rA", "peerX_64512")] ∧
    (graphEdges scenarioRouters [tunnelAB]).length = 2 ∧
    (graphEdges scenarioRouters [tunnelBA]).length = 2 ∧
    pairMem (graphEdges scenarioRouters [tunnelBA]) "rA" "rB" ∧
    pairCount (graphEdges scenarioRouters [tunnelAB]) "rA" "rB" = 1 ∧
    pairCount (graphEdges scenarioRouters [tunnelBA]) "rA" "rB" = 1 ∧
    pairCount (graphEdges scenarioRouters [tunnelAB, tunnelBA]) "rA" "rB" = 1 ∧
    dictGet (edgeLabelsExternal scenarioRouters) ("rA", "peerX_64512") = some "2ms" := by
  decide

/-! ## Claim C3: geographic fallback content -/

theorem ibgpEdges_nil (tunnels : List Tunnel) : ibgpEdges [] tunnels = [] := by
  rw [ibgpEdges, List.filterMap_eq_nil_iff]
  intro t ht
  unfold tunnelEdge
  split
  · rename_i a b heq
    rw [if_neg]
    rintro ⟨ha, _⟩
    simp [routerNodes] at ha
  · rfl

/-- C3 counterexample: with one tunnel between the scenario routers,
the cartopy branch draws the internal edge's latency label while the
fallback branch draws no edge labels at all, so the two modes do not
produce the same labels (nodes, edges and node labels do agree). -/
theorem geo_fallback_labels_cex :
    geoMapContent true scenarioRouters [Tunnel.mk ["rA", "rB"] (some 5)] =
      .ok { nodes := ["rA", "rB"], edges := [("rA", "rB")],
            nodeLabels := [("rA", "rA\n"), ("rB", "rB\n")],
            edgeLabels := [(("rA", "rB"), "5ms")] } ∧
    geoMapContent false scenarioRouters [Tunnel.mk ["rA", "rB"] (some 5)] =
      .ok { nodes := ["rA", "rB"], edges := [("rA", "rB")],
            nodeLabels := [("rA", "rA\n"), ("rB", "rB\n")],
            edgeLabels := [] } ∧
    ([(("rA", "rB"), "5ms")] : List ((String × String) × String)) ≠ [] :=
  ⟨rfl, rfl, by decide⟩

/-- C3 amended: on an input with at least one router, the fallback mode
draws the same node set, edge set and node labels as the projection
mode but no edge labels (only the cartopy branch has an edge-label
loop); on an input with no routers, the projection mode still produces
a (router-free) diagram while the fallback raises an uncaught
`ValueError` computing its viewport from the empty coordinate list, so
the two modes are not equivalent there either. -/
theorem geo_fallback_content (routers : List Router) (tunnels : List Tunnel) :
    (routers = [] →
      geoMapContent false routers tunnels = .error () ∧
      geoMapContent true routers tunnels = .ok ⟨[], [], [], []⟩) ∧
    (routers ≠ [] →
      ∃ gt gf, geoMapContent true routers tunnels = .ok gt ∧
        geoMapContent false routers tunnels = .ok gf ∧
        gf.nodes = gt.nodes ∧ gf.edges = gt.edges ∧
        gf.nodeLabels = gt.nodeLabels ∧ gf.edgeLabels = []) := by
  constructor
  · rintro rfl
    refine ⟨rfl, ?_⟩
    have hibgp : ibgpEdges [] tunnels = [] := ibgpEdges_nil tunnels
    unfold geoMapContent
    rw [if_pos rfl, hibgp]
    rfl
  · intro hne
    obtain ⟨r, rest, rfl⟩ := List.exists_cons_of_ne_nil hne
    exact ⟨_, _, rfl, rfl, rfl, rfl, rfl, rfl⟩

/-- C3 witness: applying the amended theorem at the empty router list —
the fallback raises while the projection mode still renders. -/
theorem geo_fallback_content_witness :
    geoMapContent false ([] : List Router) [] = .error () ∧
    geoMapContent true ([] : List Router) [] = .ok ⟨[], [], [], []⟩ :=
  (geo_fallback_content [] []).1 rfl

/-! ## Claim C5: determinism of the layout computation -/

/-- C5: the layout strategy of the logical diagram is a pure,
closed-form computation of its input (no random source appears anywhere
in lines 298-406), so two runs on identical input produce identical
coordinates for every node. -/
theorem layout_run_deterministic (routers1 routers2 : List Router)
    (h : routers1 = routers2) : logicalLayout routers1 = logicalLayout routers2 := by
  rw [h]

/-- C5 witness: two runs on the scenario input coincide. -/
theorem layout_run_deterministic_witness :
    scenarioRouters = scenarioRouters ∧
    logicalLayout scenarioRouters = logicalLayout scenarioRouters :=
  ⟨rfl, layout_run_deterministic scenarioRouters scenarioRouters rfl⟩

/-! ## Claim C9: frr.conf assembly order -/

/-- C9 counterexample: with non-empty rendered global text, the file
written for a node does not begin with the BGP content — the global
template's text precedes it — so the file is not `BGP ++ header ++
route-maps` for any header. -/
theorem frr_conf_bgp_first_cex :
    frrConf "g\n" "b\n" "r\n" = "g\nb\n\n! Route-maps configuration\nr\n" ∧
    ¬ ∃ hdr : String, frrConf "g\n" "b\n" "r\n" = "b\n" ++ hdr ++ "r\n" := by
  constructor
  · rfl
  · rintro ⟨hdr, hH⟩
    have h1 : (frrConf "g\n" "b\n" "r\n").data.head? = some 'g' := by rfl
    rw [hH] at h1
    have h2 : ("b\n" ++ hdr ++ "r\n").data.head? = some 'b' := by rfl
    rw [h2] at h1
    injection h1 with h3
    cases h3

/-- C9 amended: the text of a node's `frr.conf` is the rendered global
template first, then the BGP content, then a newline and the literal
header `! Route-maps configuration`, then the route-map content, with
nothing else interleaved. -/
theorem frr_conf_order (g b r : String) :
    frrConf g b r = g ++ (b ++ ("\n" ++ ("! Route-maps configuration\n" ++ r))) := by
  show ((((("" ++ g) ++ b) ++ "\n") ++ "! Route-maps configuration\n") ++ r) = _
  rw [String.empty_append]
  rw [String.append_assoc, String.append_assoc, String.append_assoc]

/-! ## Claim C7: silent overwrite on `(name, asn)` identity collision -/

theorem mem_peerKeys (routers : List Router) (pid : String) :
    pid ∈ (peerEntries routers).map (fun e => e.1) ↔
      pid ∈ dn42Peers routers ∨ pid ∈ otherPeers routers := by
  simp only [peerEntries, dn42Peers, otherPeers, List.mem_map, List.mem_flatMap,
    List.mem_append]
  aesop

/-- C7: when exactly two peer entries (possibly on different routers)
resolve to the same composite identity `name_asn`, the built graph has a
single node for that identity, the dict-built label and router
association are those of the second occurrence (the second assignment
silently overwrites the first), and both external edges are present and
incident to that one node. -/
theorem peer_identity_collision (routers : List Router) (tunnels : List Tunnel)
    (X Z Y : List (String × String × String)) (pid l1 r1 l2 r2 : String)
    (hsplit : peerEntries routers = X ++ (pid, l1, r1) :: Z ++ (pid, l2, r2) :: Y)
    (hX : pid ∉ X.map (fun e => e.1)) (hZ : pid ∉ Z.map (fun e => e.1))
    (hY : pid ∉ Y.map (fun e => e.1)) :
    (graphNodes routers).count pid = 1 ∧
    dictGet (peerLabels routers) pid = some l2 ∧
    dictGet (peerToRouter routers) pid = some r2 ∧
    pairMem (graphEdges routers tunnels) r1 pid ∧
    pairMem (graphEdges routers tunnels) r2 pid := by
  have hmem1 : (pid, l1, r1) ∈ peerEntries routers := by
    rw [hsplit]
    exact List.mem_append_left _ (List.mem_append_right _ (List.mem_cons_self _ _))
  have hmem2 : (pid, l2, r2) ∈ peerEntries routers := by
    rw [hsplit]
    exact List.mem_append_right _ (List.mem_cons_self _ _)
  have hkey : pid ∈ (peerEntries routers).map (fun e => e.1) :=
    List.mem_map.mpr ⟨_, hmem1, rfl⟩
  refine ⟨?_, ?_, ?_, ?_, ?_⟩
  · apply List.count_eq_one_of_mem (nodup_graphNodes routers)
    rw [mem_graphNodes]
    rcases (mem_peerKeys routers pid).mp hkey with h | h
    · exact Or.inr (Or.inl h)
    · exact Or.inr (Or.inr h)
  · have hre : peerLabels routers =
        (X.map (fun e => (e.1, e.2.1)) ++ (pid, l1) :: Z.map (fun e => (e.1, e.2.1))) ++
          (pid, l2) :: Y.map (fun e => (e.1, e.2.1)) := by
      rw [peerLabels, hsplit]
      simp [List.map_append]
    rw [hre]
    apply dictGet_last
    rw [List.map_map]
    simpa using hY
  · have hre : peerToRouter routers =
        (X.map (fun e => (e.1, e.2.2)) ++ (pid, r1) :: Z.map (fun e => (e.1, e.2.2))) ++
          (pid, r2) :: Y.map (fun e => (e.1, e.2.2)) := by
      rw [peerToRouter, hsplit]
      simp [List.map_append]
    rw [hre]
    apply dictGet_last
    rw [List.map_map]
    simpa using hY
  · have he : (r1, pid) ∈ externalEdges routers :=
      List.mem_map.mpr ⟨(pid, l1, r1), hmem1, rfl⟩
    exact pairMem_foldl_of_mem _ _ (r1, pid) (List.mem_append_right _ he)
  · have he : (r2, pid) ∈ externalEdges routers :=
      List.mem_map.mpr ⟨(pid, l2, r2), hmem2, rfl⟩
    exact pairMem_foldl_of_mem _ _ (r2, pid) (List.mem_append_right _ he)

/-- C7 witness: two routers `h1`, `h2` each carry a DN42 peer resolving
to the identity `p_1`; the node is unique, its label and its router
association come from the `h2` occurrence, and both external edges are
in the graph. -/
theorem peer_identity_collision_witness :
    (peerEntries collidingRouters =
        [] ++ ("p_1", "p\nAS1", "h1") :: [] ++ ("p_1", "p\nAS1", "h2") :: []) ∧
    ((graphNodes collidingRouters).count "p_1" = 1 ∧
     dictGet (peerLabels collidingRouters) "p_1" = some "p\nAS1" ∧
     dictGet (peerToRouter collidingRouters) "p_1" = some "h2" ∧
     pairMem (graphEdges collidingRouters []) "h1" "p_1" ∧
     pairMem (graphEdges collidingRouters []) "h2" "p_1") :=
  ⟨by decide, peer_identity_collision collidingRouters [] [] [] []
    "p_1" "p\nAS1" "h1" "p\nAS1" "h2" (by decide) (by decide) (by decide) (by decide)⟩

/-! ## Claim C4: layout totality -/

theorem linspace_length (start stop : ℝ) (n : ℕ) :
    (linspace start stop n).length = n := by
  unfold linspace
  split
  · rename_i h
    simp [h]
  · rw [List.length_map, List.length_range]

theorem fanAngles_length (base : ℝ) (n : ℕ) : (fanAngles base n).length = n := by
  unfold fanAngles
  split
  · rename_i h
    simp [h]
  · exact linspace_length _ _ _

theorem mem_insertPeerBucket_self (m : List (String × List String)) (r p : String) :
    p ∈ (insertPeerBucket m r p).flatMap (fun kv => kv.2) := by
  unfold insertPeerBucket
  split
  · rename_i h
    obtain ⟨kv, hkv, hr⟩ := List.any_eq_true.mp h
    apply List.mem_flatMap.mpr
    refine ⟨(kv.1, kv.2 ++ [p]), List.mem_map.mpr ⟨kv, hkv, ?_⟩, by simp⟩
    rw [if_pos (by simpa using hr)]
  · exact List.mem_flatMap.mpr
      ⟨(r, [p]), List.mem_append_right _ (List.mem_cons_self _ _), by simp⟩

theorem mem_insertPeerBucket_mono (m : List (String × List String)) (r p q : String)
    (hq : q ∈ m.flatMap (fun kv => kv.2)) :
    q ∈ (insertPeerBucket m r p).flatMap (fun kv => kv.2) := by
  unfold insertPeerBucket
  obtain ⟨kv, hkv, hqkv⟩ := List.mem_flatMap.mp hq
  split
  · apply List.mem_flatMap.mpr
    by_cases hr : kv.1 = r
    · exact ⟨(kv.1, kv.2 ++ [p]), List.mem_map.mpr ⟨kv, hkv, by rw [if_pos hr]⟩,
        List.mem_append_left _ hqkv⟩
    · exact ⟨kv, List.mem_map.mpr ⟨kv, hkv, by rw [if_neg hr]⟩, hqkv⟩
  · exact List.mem_flatMap.mpr ⟨kv, List.mem_append_left _ hkv, hqkv⟩

theorem mem_peersFold (PT : List (String × String)) (l : List String)
    (m : List (String × List String)) (q : String)
    (h : q ∈ m.flatMap (fun kv => kv.2) ∨
         (q ∈ l ∧ ∃ r, dictGet PT q = some r ∧ r ≠ "")) :
    q ∈ ((l.foldl (fun m pid =>
        match dictGet PT pid with
        | some r => if r = "" then m else insertPeerBucket m r pid
        | none => m) m).flatMap (fun kv => kv.2)) := by
  induction l generalizing m with
  | nil =>
    rcases h with h | ⟨h, _⟩
    · exact h
    · cases h
  | cons x xs ih =>
    rw [List.foldl_cons]
    apply ih
    rcases h with h | ⟨hx, r, hr, hr0⟩
    · left
      cases hPT : dictGet PT x with
      | none => simpa [hPT] using h
      | some s =>
        simp only [hPT]
        by_cases h0 : s = ""
        · rwa [if_pos h0]
        · rw [if_neg h0]
          exact mem_insertPeerBucket_mono _ _ _ _ h
    · rcases List.mem_cons.mp hx with rfl | hxs
      · left
        simp only [hr]
        rw [if_neg hr0]
        exact mem_insertPeerBucket_self _ _ _
      · exact Or.inr ⟨hxs, r, hr, hr0⟩

theorem logicalLayout_keys (routers : List Router) :
    (logicalLayout routers).map Prod.fst =
      routerNodes routers ++ (peersByRouter routers).flatMap (fun kv => kv.2) := by
  unfold logicalLayout
  rw [List.map_append]
  congr 1
  · rw [List.map_map]
    rfl
  · rw [List.map_flatMap]
    congr 1
    funext b
    rw [List.map_map]
    exact List.map_fst_zip _ _ (le_of_eq (fanAngles_length _ _).symm)


theorem geoMapContent_ok_nodes (hc : Bool) (routers : List Router)
    (tunnels : List Tunnel) (g : GeoOutput)
    (h : geoMapContent hc routers tunnels = .ok g) :
    g.nodes = routerNodes routers := by
  cases hc with
  | true =>
    unfold geoMapContent at h
    rw [if_pos rfl] at h
    injection h with h2
    rw [← h2]
  | false =>
    unfold geoMapContent at h
    rw [if_neg (by simp)] at h
    split at h
    · exact absurd h (by simp)
    · injection h with h2
      rw [← h2]

theorem peerToRouter_value (routers : List Router) (pid r : String)
    (h : (pid, r) ∈ peerToRouter routers) : ∃ ro ∈ routers, ro.hostname = r := by
  unfold peerToRouter at h
  obtain ⟨e, he, hpr⟩ := List.mem_map.mp h
  unfold peerEntries at he
  obtain ⟨ro, hro, he2⟩ := List.mem_flatMap.mp he
  have her : e.2.2 = ro.hostname := by
    rcases List.mem_append.mp he2 with he3 | he3 <;>
      obtain ⟨p, _, rfl⟩ := List.mem_map.mp he3 <;> rfl
  exact ⟨ro, hro, by rw [← her, (Prod.ext_iff.mp hpr).2]⟩

/-- C4 counterexample: a router whose hostname is the empty string
(falsy in Python's `if router:` guard at line 375) carries one peer;
the peer node `p_1` is in the built graph but the layout mapping
assigns it no position, so the drawing step would fail on it instead of
assigning a default. -/
theorem layout_totality_cex :
    "p_1" ∈ graphNodes [emptyNameRouter] ∧
    dictGet (logicalLayout [emptyNameRouter]) "p_1" = none := by
  constructor
  · decide
  · rw [dictGet_eq_none_iff, logicalLayout_keys]
    have hpbr : peersByRouter [emptyNameRouter] = [] := by decide
    rw [hpbr]
    decide

/-- C4 amended: provided every router hostname is non-empty (truthy),
every node of the built graph receives a position in the logical
layout; every node of the geographic diagram receives a coordinate in
either projection mode; and a router with an unknown hostname prefix
receives the deterministic default anchor `(0, 0)` rather than
failing.  (Without the hostname proviso the property fails, see the
counterexample: a peer of a router whose hostname is the empty string
is skipped by the fan placement and gets no position.) -/
theorem layout_totality (routers : List Router) (tunnels : List Tunnel)
    (hR : ∀ r ∈ routers, r.hostname ≠ "") :
    (∀ n ∈ graphNodes routers, (dictGet (logicalLayout routers) n).isSome) ∧
    (∀ (hc : Bool) (g : GeoOutput), geoMapContent hc routers tunnels = .ok g →
        ∀ n ∈ g.nodes, (dictGet (routerPositionsGeo routers) n).isSome) ∧
    (∀ h : String, LOGICAL_POSITIONS (hostPrefix h) = none →
        get_logical_position h = (0, 0)) := by
  refine ⟨?_, ?_, ?_⟩
  · intro n hn
    rw [dictGet_isSome_iff, logicalLayout_keys, List.mem_append]
    have hpeer : n ∈ dn42Peers routers ∨ n ∈ otherPeers routers →
        n ∈ (peersByRouter routers).flatMap (fun kv => kv.2) := by
      intro hd
      have hkey : n ∈ (peerToRouter routers).map Prod.fst := by
        rw [peerToRouter, List.map_map]
        exact (mem_peerKeys routers n).mpr hd
      obtain ⟨r, hr⟩ := Option.isSome_iff_exists.mp
        ((dictGet_isSome_iff (peerToRouter routers) n).mpr hkey)
      obtain ⟨ro, hro, rfl⟩ := peerToRouter_value routers n r (dictGet_mem hr)
      unfold peersByRouter
      apply mem_peersFold
      refine Or.inr ⟨?_, ro.hostname, hr, hR ro hro⟩
      rcases hd with hd | hd
      · exact List.mem_append_left _ hd
      · exact List.mem_append_right _ hd
    rcases (mem_graphNodes routers n).mp hn with h | h | h
    · exact Or.inl h
    · exact Or.inr (hpeer (Or.inl h))
    · exact Or.inr (hpeer (Or.inr h))
  · intro hc g hg n hn
    rw [geoMapContent_ok_nodes hc routers tunnels g hg] at hn
    rw [dictGet_isSome_iff]
    have hkeys : (routerPositionsGeo routers).map Prod.fst = routerNodes routers := by
      rw [routerPositionsGeo, List.map_map]
      rfl
    rw [hkeys]
    exact hn
  · intro h hnone
    unfold get_logical_position
    rw [hnone]
    rfl

/-- C4 witness: on the scenario input (non-empty hostnames) every graph
node has a logical-layout position, every geographic node has a
coordinate, and unknown prefixes default to the origin. -/
theorem layout_totality_witness :
    (∀ r ∈ scenarioRouters, r.hostname ≠ "") ∧
    ((∀ n ∈ graphNodes scenarioRouters,
        (dictGet (logicalLayout scenarioRouters) n).isSome) ∧
     (∀ (hc : Bool) (g : GeoOutput),
        geoMapContent hc scenarioRouters [tunnelAB] = .ok g →
        ∀ n ∈ g.nodes, (dictGet (routerPositionsGeo scenarioRouters) n).isSome) ∧
     (∀ h : String, LOGICAL_POSITIONS (hostPrefix h) = none →
        get_logical_position h = (0, 0))) :=
  ⟨by decide, layout_totality scenarioRouters [tunnelAB] (by decide)⟩

/-! ## Claim C10: the WireGuard `filename` binding -/

/-- The property of a peer sequence that makes the run hit the unbound
`filename` name: it starts with a peer whose `asn` is not truthy. -/
def firstPeerUntruthy : List WgPeer → Prop
  | [] => False
  | p :: _ => truthyAsn p.asn = false

theorem writePeers_ok_of_some (nodeName : String) (peers : List WgPeer) (fn : String) :
    ∃ ws f2, writePeers nodeName peers (some fn) = .ok (ws, some f2) := by
  induction peers generalizing fn with
  | nil => exact ⟨[], fn, rfl⟩
  | cons p rest ih =>
    cases hasn : p.asn with
    | none =>
      obtain ⟨ws, f2, hws⟩ := ih fn
      exact ⟨(nodeName ++ "/" ++ fn, p.rendered) :: ws, f2, by
        simp [writePeers, hasn, hws, Except.map]⟩
    | some a =>
      cases ha : (a != 0) with
      | true =>
        obtain ⟨ws, f2, hws⟩ := ih (wgFilename a)
        exact ⟨(nodeName ++ "/" ++ wgFilename a, p.rendered) :: ws, f2, by
          simp [writePeers, hasn, ha, hws, Except.map]⟩
      | false =>
        obtain ⟨ws, f2, hws⟩ := ih fn
        exact ⟨(nodeName ++ "/" ++ fn, p.rendered) :: ws, f2, by
          simp [writePeers, hasn, ha, hws, Except.map]⟩

theorem writeRun_ok_of_some (nodes : List WgNode) (fn : String) :
    ∃ ws, writeRun nodes (some fn) = .ok ws := by
  induction nodes generalizing fn with
  | nil => exact ⟨[], rfl⟩
  | cons n rest ih =>
    obtain ⟨ws, f2, hws⟩ := writePeers_ok_of_some n.name n.wgpeers fn
    obtain ⟨ws', hws'⟩ := ih f2
    exact ⟨ws ++ ws', by simp [writeRun, hws, hws']⟩

theorem writeRun_none_error_iff (nodes : List WgNode) :
    writeRun nodes none = .error () ↔ firstPeerUntruthy (flatPeers nodes) := by
  induction nodes with
  | nil => simp [writeRun, flatPeers, firstPeerUntruthy]
  | cons n rest ih =>
    cases hps : n.wgpeers with
    | nil =>
      have hflat : flatPeers (n :: rest) = flatPeers rest := by
        simp [flatPeers, hps]
      have hwp : writePeers n.name n.wgpeers none = .ok ([], none) := by
        rw [hps]
        rfl
      have h1 : writeRun (n :: rest) none = writeRun rest none := by
        conv_lhs => rw [writeRun]
        rw [hwp]
        dsimp only
        cases hrr : writeRun rest none with
        | error e => rfl
        | ok ws => rfl
      rw [hflat, h1, ih]
    | cons p ps =>
      have hflat : flatPeers (n :: rest) = p :: (ps ++ flatPeers rest) := by
        simp [flatPeers, hps]
      rw [hflat]
      cases htr : truthyAsn p.asn with
      | false =>
        have herr : writePeers n.name n.wgpeers none = .error () := by
          rw [hps]
          cases hasn : p.asn with
          | none => simp [writePeers, hasn]
          | some a =>
            have ha : (a != 0) = false := by
              rw [hasn] at htr
              simpa [truthyAsn] using htr
            simp [writePeers, hasn, ha]
        have h1 : writeRun (n :: rest) none = .error () := by
          conv_lhs => rw [writeRun]
          rw [herr]
        rw [h1]
        simp [firstPeerUntruthy, htr]
      | true =>
        have hok : ∃ ws f2, writePeers n.name n.wgpeers none = .ok (ws, some f2) := by
          rw [hps]
          cases hasn : p.asn with
          | none =>
            rw [hasn] at htr
            simp [truthyAsn] at htr
          | some a =>
            have ha : (a != 0) = true := by
              rw [hasn] at htr
              simpa [truthyAsn] using htr
            obtain ⟨ws, f2, hws⟩ := writePeers_ok_of_some n.name ps (wgFilename a)
            exact ⟨(n.name ++ "/" ++ wgFilename a, p.rendered) :: ws, f2, by
              simp [writePeers, hasn, ha, hws, Except.map]⟩
        obtain ⟨ws, f2, hok⟩ := hok
        obtain ⟨ws', hok'⟩ := writeRun_ok_of_some rest f2
        have h1 : writeRun (n :: rest) none = .ok (ws ++ ws') := by
          conv_lhs => rw [writeRun]
          rw [hok]
          dsimp only
          rw [hok']
        rw [h1]
        simp [firstPeerUntruthy, htr]

theorem writePeers_pair (nodeName : String) (f : Option String) (p1 p2 : WgPeer)
    (a : Int) (h1 : p1.asn = some a) (ha : a ≠ 0) (h2 : truthyAsn p2.asn = false) :
    writePeers nodeName [p1, p2] f =
      .ok ([(nodeName ++ "/" ++ wgFilename a, p1.rendered),
            (nodeName ++ "/" ++ wgFilename a, p2.rendered)], some (wgFilename a)) := by
  have ha' : (a != 0) = true := by simpa using ha
  cases hasn2 : p2.asn with
  | none =>
    simp [writePeers, h1, ha', hasn2, Except.map]
  | some b =>
    have hb : (b != 0) = false := by
      rw [hasn2] at h2
      simpa [truthyAsn] using h2
    simp [writePeers, h1, ha', hasn2, hb, Except.map]

/-- C10 counterexample: `node2`'s first (and only) peer has no `asn`,
yet the run raises no name error — `filename` is still bound from
`node1`'s peer — and `node2`'s config is written to `node2/wg1.conf`,
the leaked filename. -/
theorem wg_nameerror_cex :
    wgGeneration [⟨"node1", [⟨some 1, "c1"⟩]⟩, ⟨"node2", [⟨none, "c2"⟩]⟩] =
      .ok [("node1/wg1.conf", "c1"), ("node2/wg1.conf", "c2")] ∧
    wgGeneration [⟨"node1", [⟨some 1, "c1"⟩]⟩, ⟨"node2", [⟨none, "c2"⟩]⟩] ≠
      .error () :=
  ⟨rfl, fun h => Except.noConfusion h⟩

/-- C10 amended: the run hits the unbound `filename` name (a
`NameError`) exactly when the very first peer in program order — across
all nodes — lacks a truthy `asn`; any later `asn`-less peer reuses the
most recently bound filename (possibly from a previous node).  Within
one node, an `asn`-less peer following a peer with asn `a` is written to
the preceding peer's `wg<a>.conf` path, overwriting that file. -/
theorem wg_write_behavior (nodes : List WgNode) (name : String) (f : Option String)
    (p1 p2 : WgPeer) (a : Int) (h1 : p1.asn = some a) (ha : a ≠ 0)
    (h2 : truthyAsn p2.asn = false) :
    ((wgGeneration nodes = .error ()) ↔
      ∃ p l, flatPeers nodes = p :: l ∧ truthyAsn p.asn = false) ∧
    writePeers name [p1, p2] f =
      .ok ([(name ++ "/" ++ wgFilename a, p1.rendered),
            (name ++ "/" ++ wgFilename a, p2.rendered)], some (wgFilename a)) := by
  constructor
  · rw [wgGeneration, writeRun_none_error_iff]
    cases hfp : flatPeers nodes with
    | nil => simp [firstPeerUntruthy]
    | cons p l =>
      simp only [firstPeerUntruthy]
      constructor
      · intro h
        exact ⟨p, l, rfl, h⟩
      · rintro ⟨p', l', heq, htr⟩
        injection heq with e1 e2
        subst e1
        exact htr
  · exact writePeers_pair name f p1 p2 a h1 ha h2

/-- C10 witness: one node with a truthy-asn peer followed by an
asn-less peer; the asn-less peer's config is written to the preceding
peer's `wg2.conf`, and the run errors iff its first peer is untruthy
(here it is not). -/
theorem wg_write_behavior_witness :
    ((⟨some 2, "x"⟩ : WgPeer).asn = some 2) ∧ (2 : Int) ≠ 0 ∧
    truthyAsn (⟨none, "y"⟩ : WgPeer).asn = false ∧
    (((wgGeneration [⟨"n", [⟨some 2, "x"⟩, ⟨none, "y"⟩]⟩] = .error ()) ↔
        ∃ p l, flatPeers [⟨"n", [⟨some 2, "x"⟩, ⟨none, "y"⟩]⟩] = p :: l ∧
          truthyAsn p.asn = false) ∧
      writePeers "n" [⟨some 2, "x"⟩, ⟨none, "y"⟩] none =
        .ok ([("n" ++ "/" ++ wgFilename 2, "x"), ("n" ++ "/" ++ wgFilename 2, "y")],
          some (wgFilename 2))) :=
  ⟨rfl, by decide, rfl,
    wg_write_behavior [⟨"n", [⟨some 2, "x"⟩, ⟨none, "y"⟩]⟩] "n" none
      ⟨some 2, "x"⟩ ⟨none, "y"⟩ 2 rfl (by decide) rfl⟩

/-! ## Claim C2: radial fan-out geometry -/

theorem abs_mk_eq (x y : ℝ) : Complex.abs ⟨x, y⟩ = Real.sqrt (x ^ 2 + y ^ 2) := by
  rw [Complex.abs_apply, Complex.normSq_mk]
  congr 1
  ring

/-- C2: the geometry of the fan placement (lines 384-406).  Writing `d`
for the direction vector from the router-anchor centroid to the
router's anchor (the vector `logicalLayout` passes to `baseAngle`):
when `d` has positive norm the base angle is the angle of `d` (its
cosine and sine are the components of `d` normalized); when the norm is
zero the base angle is `0`, the angle of the `+x` axis.  A single peer
gets exactly the base angle; `n ≥ 2` peers get `n` angles evenly spaced
by `(120°)/(n-1)` from `θ - 60°` to `θ + 60°` — a 120° span centered on
`θ` — and every peer is placed at distance `peer_distance = 0.45` from
the router. -/
theorem fanout_angles_spec (d rp : ℝ × ℝ) (θ α : ℝ) (n i : ℕ)
    (hn : 2 ≤ n) (hi : i < n) :
    (0 < npNorm d →
      Real.cos (baseAngle d) = d.1 / npNorm d ∧
      Real.sin (baseAngle d) = d.2 / npNorm d) ∧
    (¬ 0 < npNorm d → baseAngle d = 0) ∧
    fanAngles θ 1 = [θ] ∧
    (fanAngles θ n).length = n ∧
    (fanAngles θ n).getD i 0 =
      θ - Real.pi / 3 + (i : ℝ) * ((2 * Real.pi / 3) / ((n : ℝ) - 1)) ∧
    (fanAngles θ n).getD 0 0 = θ - Real.pi / 3 ∧
    (fanAngles θ n).getD (n - 1) 0 = θ + Real.pi / 3 ∧
    ((fanAngles θ n).getD 0 0 + (fanAngles θ n).getD (n - 1) 0) / 2 = θ ∧
    npNorm ((peerPos rp α).1 - rp.1, (peerPos rp α).2 - rp.2) = peer_distance := by
  have hn1 : n ≠ 1 := by omega
  have hnR : (2 : ℝ) ≤ (n : ℝ) := by exact_mod_cast hn
  have hnne : ((n : ℝ) - 1) ≠ 0 := by linarith
  have hs : spreadAngle = 2 * Real.pi / 3 := by
    unfold spreadAngle
    rw [show (1.5 : ℝ) = 3 / 2 by norm_num]
    ring
  have hElem : ∀ j : ℕ, j < n → (fanAngles θ n).getD j 0 =
      θ - Real.pi / 3 + (j : ℝ) * ((2 * Real.pi / 3) / ((n : ℝ) - 1)) := by
    intro j hj
    unfold fanAngles linspace
    rw [if_neg hn1, if_neg hn1]
    rw [List.getD_eq_getElem?_getD, List.getElem?_map, List.getElem?_range hj]
    simp only [Option.map_some', Option.getD_some]
    rw [hs]
    ring
  have hF : (fanAngles θ n).getD 0 0 = θ - Real.pi / 3 := by
    have := hElem 0 (by omega)
    simpa using this
  have hG : (fanAngles θ n).getD (n - 1) 0 = θ + Real.pi / 3 := by
    have h := hElem (n - 1) (by omega)
    rw [h, Nat.cast_sub (by omega : 1 ≤ n)]
    field_simp
    ring
  refine ⟨?_, ?_, by simp [fanAngles], fanAngles_length θ n, hElem i hi, hF, hG,
    by rw [hF, hG]; ring, ?_⟩
  · intro hpos
    have hfd : fanDirection d = (d.1 / npNorm d, d.2 / npNorm d) := by
      unfold fanDirection
      rw [if_pos hpos]
    have habs : Complex.abs ⟨d.1 / npNorm d, d.2 / npNorm d⟩ = 1 := by
      rw [abs_mk_eq]
      have h1 : (d.1 / npNorm d) ^ 2 + (d.2 / npNorm d) ^ 2 =
          (d.1 ^ 2 + d.2 ^ 2) / (npNorm d) ^ 2 := by ring
      rw [h1, Real.sqrt_div (by positivity)]
      rw [show Real.sqrt (d.1 ^ 2 + d.2 ^ 2) = npNorm d from rfl]
      rw [Real.sqrt_sq hpos.le]
      exact div_self (ne_of_gt hpos)
    have hz : (⟨d.1 / npNorm d, d.2 / npNorm d⟩ : ℂ) ≠ 0 := by
      intro h0
      rw [h0] at habs
      simp at habs
    have hba : baseAngle d = Complex.arg ⟨d.1 / npNorm d, d.2 / npNorm d⟩ := by
      unfold baseAngle arctan2
      rw [hfd]
    constructor
    · rw [hba, Complex.cos_arg hz, habs, div_one]
    · rw [hba, Complex.sin_arg, habs, div_one]
  · intro hneg
    have hfd : fanDirection d = (1, 0) := by
      unfold fanDirection
      rw [if_neg hneg]
    unfold baseAngle arctan2
    rw [hfd]
    have h1 : (⟨(1, (0 : ℝ)).1, (1, (0 : ℝ)).2⟩ : ℂ) = 1 := by
      apply Complex.ext <;> simp
    rw [h1, Complex.arg_one]
  · unfold npNorm peerPos peer_distance
    have h1 : ((rp.1 + 0.45 * Real.cos α) - rp.1) ^ 2 +
        ((rp.2 + 0.45 * Real.sin α) - rp.2) ^ 2 =
        (0.45 : ℝ) ^ 2 * (Real.cos α ^ 2 + Real.sin α ^ 2) := by ring
    rw [h1, Real.cos_sq_add_sin_sq, mul_one, Real.sqrt_sq (by norm_num)]

/-- C2 witness: the fan-out geometry instantiated at the direction
`(1, 0)`, base angle `0`, router at the origin and `n = 3` peers. -/
theorem fanout_angles_spec_witness :
    2 ≤ 3 ∧ 1 < 3 ∧
    ((0 < npNorm ((1 : ℝ), (0 : ℝ)) →
        Real.cos (baseAngle (1, 0)) = (1 : ℝ) / npNorm (1, 0) ∧
        Real.sin (baseAngle (1, 0)) = (0 : ℝ) / npNorm (1, 0)) ∧
     (¬ 0 < npNorm ((1 : ℝ), (0 : ℝ)) → baseAngle (1, 0) = 0) ∧
     fanAngles 0 1 = [0] ∧
     (fanAngles 0 3).length = 3 ∧
     (fanAngles 0 3).getD 1 0 =
       0 - Real.pi / 3 + ((1 : ℕ) : ℝ) * ((2 * Real.pi / 3) / (((3 : ℕ) : ℝ) - 1)) ∧
     (fanAngles 0 3).getD 0 0 = 0 - Real.pi / 3 ∧
     (fanAngles 0 3).getD (3 - 1) 0 = 0 + Real.pi / 3 ∧
     ((fanAngles 0 3).getD 0 0 + (fanAngles 0 3).getD (3 - 1) 0) / 2 = 0 ∧
     npNorm ((peerPos (0, 0) 0).1 - ((0 : ℝ), (0 : ℝ)).1,
             (peerPos (0, 0) 0).2 - ((0 : ℝ), (0 : ℝ)).2) = peer_distance) :=
  ⟨by decide, by decide,
    fanout_angles_spec (1, 0) (0, 0) 0 0 3 1 (by decide) (by decide)⟩

end Dn42
